import Mathlib

/-!
Verification development for the platformer repository
(`src/platformer/platformer.py`).

The file embeds, in order:
* the level-loading pipeline (`Level`, `LevelEngine.load`: JSON Schema
  validation followed by a strict `from_dict` decode);
* the event handling of the two game states (`PlayingState`,
  `SplashScreenState`) and the game-loop driver (`GameEngine.loop`);
* the visual engine (`set_background`, `set_scenery`): image rescaling,
  horizontal tiling and layer compositing.

Machine integers do not overflow in the modelled code paths, so Python
integers are embedded as `Nat`/`Int` directly.
-/

set_option autoImplicit false

/-- JSON values, as produced by `json.loads`: the subset of shapes the level
files can contain (strings, integers, booleans, arrays, objects, null). -/
inductive Json where
  | str (s : String)
  | int (n : Int)
  | bool (b : Bool)
  | arr (xs : List Json)
  | obj (fields : List (String × Json))
  | null

/-- The `Level` frozen dataclass of `platformer.py`. -/
structure Level where
  name : String
  music : String
  background_color : List Int
  background_img : String
  scenery_img : String
deriving DecidableEq

/-- The field names of the `Level` dataclass. -/
def levelFields : List String :=
  ["name", "music", "background_color", "background_img", "scenery_img"]

/-- Look up a string-typed entry of a JSON object (a Python `dict` has unique
keys, so first-match lookup agrees with the dict). -/
def getStr (d : List (String × Json)) (k : String) : Option String :=
  match d.lookup k with
  | some (Json.str s) => some s
  | _ => none

/-- A JSON value read as a Python `int`, as `dacite` type-checks it. -/
def asInt : Json → Option Int
  | Json.int n => some n
  | _ => none

/-- A JSON array read as a Python `list[int]`, element by element. -/
def asIntList : List Json → Option (List Int)
  | [] => some []
  | j :: js =>
    match asInt j, asIntList js with
    | some v, some vs => some (v :: vs)
    | _, _ => none

/-- Look up a `list[int]`-typed entry of a JSON object. -/
def getIntList (d : List (String × Json)) (k : String) : Option (List Int) :=
  match d.lookup k with
  | some (Json.arr xs) => asIntList xs
  | _ => none

/-- Whether a decoded color array is an RGB triple of integers 0–255. -/
def rgbOk (xs : List Int) : Bool :=
  xs.length == 3 && xs.all fun v => 0 ≤ v && v ≤ 255

/-- Modelled from the spec: the JSON Schema document
`data/level/level.schema.json` is repository data, not code under `src/`.
Per the spec (§6, External interfaces) the schema requires `name` (string),
`music` (string), `background_color` (array of 3 integers 0–255),
`background_img` (string) and `scenery_img` (string); extra fields are
schema-permitted and only rejected later by the strict decode. -/
def schemaValid (d : List (String × Json)) : Bool :=
  (getStr d "name").isSome &&
  (getStr d "music").isSome &&
  ((getIntList d "background_color").any rgbOk) &&
  (getStr d "background_img").isSome &&
  (getStr d "scenery_img").isSome

/-- `dacite.from_dict(data_class=Level, data, config=Config(strict=True, …))`:
every `Level` field must be present with the declared type, and — because of
`strict=True` — every key of the document must be a `Level` field. -/
def from_dict_level (d : List (String × Json)) : Option Level :=
  if d.all (fun kv => decide (kv.1 ∈ levelFields)) then
    match getStr d "name", getStr d "music", getIntList d "background_color",
      getStr d "background_img", getStr d "scenery_img" with
    | some n, some m, some bc, some bi, some si => some (Level.mk n m bc bi si)
    | _, _, _, _, _ => none
  else none

/-- The two failure kinds of `LevelEngine.load`: `jsonschema` validation
failure versus `dacite` strict-decode failure. -/
inductive LoadError where
  | validation
  | decode
deriving DecidableEq

/-- `LevelEngine.load`, applied to the parsed JSON object of the level file:
`validate(data, schema)` runs first and raises on violation; only then is the
strict `from_dict` decode attempted. -/
def LevelEngine.load (d : List (String × Json)) : Except LoadError Level :=
  if schemaValid d then
    match from_dict_level d with
    | some lvl => Except.ok lvl
    | none => Except.error LoadError.decode
  else Except.error LoadError.validation

/-- If `getStr` finds a string, the raw object holds exactly that string. -/
theorem getStr_some {d : List (String × Json)} {k s : String}
    (h : getStr d k = some s) : d.lookup k = some (Json.str s) := by
  unfold getStr at h
  cases hl : d.lookup k with
  | none => rw [hl] at h; exact absurd h (by simp)
  | some j => cases j <;> rw [hl] at h <;> simp_all

/-- `asIntList` succeeds exactly on arrays of integers, verbatim. -/
theorem asIntList_some {ys : List Json} {xs : List Int}
    (h : asIntList ys = some xs) : ys = xs.map Json.int := by
  induction ys generalizing xs with
  | nil =>
    simp only [asIntList, Option.some.injEq] at h
    subst h; rfl
  | cons y ys ih =>
    cases y <;> simp only [asIntList, asInt] at h
    case int n =>
      cases hm : asIntList ys with
      | none => rw [hm] at h; exact absurd h (by simp)
      | some vs =>
        rw [hm] at h
        simp only [Option.some.injEq] at h
        subst h
        simp [ih hm]
    all_goals exact Option.noConfusion h

/-- If `getIntList` finds an integer list, the raw object holds its image
under `Json.int`, verbatim. -/
theorem getIntList_some {d : List (String × Json)} {k : String} {xs : List Int}
    (h : getIntList d k = some xs) :
    d.lookup k = some (Json.arr (xs.map Json.int)) := by
  unfold getIntList at h
  cases hl : d.lookup k with
  | none => rw [hl] at h; exact absurd h (by simp)
  | some j =>
    cases j <;> rw [hl] at h <;> simp_all
    case arr ys => exact asIntList_some h

/-- C1 (amended): a document missing a required field or carrying a
wrong-typed field violates the schema and `LevelEngine.load` fails with a
validation error; a schema-valid document with an extra field fails with a
decode error from the strict decode; a schema-valid document whose keys are
exactly the five `Level` fields loads successfully, every field of the
returned record equal to the corresponding input value verbatim. -/
theorem load_strict_amended (d : List (String × Json)) :
    (schemaValid d = false → LevelEngine.load d = Except.error LoadError.validation) ∧
    (schemaValid d = true → ¬ (∀ kv ∈ d, kv.1 ∈ levelFields) →
      LevelEngine.load d = Except.error LoadError.decode) ∧
    (schemaValid d = true → (∀ kv ∈ d, kv.1 ∈ levelFields) →
      ∃ n m bc bi si,
        LevelEngine.load d = Except.ok (Level.mk n m bc bi si) ∧
        d.lookup "name" = some (Json.str n) ∧
        d.lookup "music" = some (Json.str m) ∧
        d.lookup "background_color" = some (Json.arr (bc.map Json.int)) ∧
        d.lookup "background_img" = some (Json.str bi) ∧
        d.lookup "scenery_img" = some (Json.str si)) := by
  refine ⟨fun h => by simp [LevelEngine.load, h], fun hv hextra => ?_, fun hv hkeys => ?_⟩
  · have hall : d.all (fun kv => decide (kv.1 ∈ levelFields)) = false := by
      cases hb : d.all (fun kv => decide (kv.1 ∈ levelFields)) with
      | false => rfl
      | true =>
        exact absurd (fun kv hkv => by
          have := List.all_eq_true.mp hb kv hkv
          exact of_decide_eq_true this) hextra
    simp [LevelEngine.load, hv, from_dict_level, hall]
  · have hall : d.all (fun kv => decide (kv.1 ∈ levelFields)) = true :=
      List.all_eq_true.mpr fun kv hkv => decide_eq_true (hkeys kv hkv)
    have hv5 := hv
    simp only [schemaValid, Bool.and_eq_true] at hv5
    obtain ⟨⟨⟨⟨h1, h2⟩, h3⟩, h4⟩, h5⟩ := hv5
    obtain ⟨n, hn⟩ := Option.isSome_iff_exists.mp h1
    obtain ⟨m, hm⟩ := Option.isSome_iff_exists.mp h2
    have hbc : ∃ bc, getIntList d "background_color" = some bc := by
      cases hb : getIntList d "background_color" with
      | none => rw [hb] at h3; exact absurd h3 (by simp [Option.any])
      | some bc => exact ⟨bc, rfl⟩
    obtain ⟨bc, hbcs⟩ := hbc
    obtain ⟨bi, hbi⟩ := Option.isSome_iff_exists.mp h4
    obtain ⟨si, hsi⟩ := Option.isSome_iff_exists.mp h5
    refine ⟨n, m, bc, bi, si, ?_, getStr_some hn, getStr_some hm,
      getIntList_some hbcs, getStr_some hbi, getStr_some hsi⟩
    simp [LevelEngine.load, hv, from_dict_level, hall, hn, hm, hbcs, hbi, hsi]

/-- C1 witness: a concrete well-formed document (the spec's example
`splash.json`) loads successfully with all five fields verbatim. -/
theorem load_strict_amended_witness :
    ∃ n m bc bi si,
      LevelEngine.load
        [("name", Json.str "Splash"), ("music", Json.str "intro.ogg"),
         ("background_color", Json.arr [Json.int 0, Json.int 0, Json.int 0]),
         ("background_img", Json.str "sky.png"),
         ("scenery_img", Json.str "ground.png")] = Except.ok (Level.mk n m bc bi si) ∧
      List.lookup "name"
        [("name", Json.str "Splash"), ("music", Json.str "intro.ogg"),
         ("background_color", Json.arr [Json.int 0, Json.int 0, Json.int 0]),
         ("background_img", Json.str "sky.png"),
         ("scenery_img", Json.str "ground.png")] = some (Json.str n) ∧
      List.lookup "music"
        [("name", Json.str "Splash"), ("music", Json.str "intro.ogg"),
         ("background_color", Json.arr [Json.int 0, Json.int 0, Json.int 0]),
         ("background_img", Json.str "sky.png"),
         ("scenery_img", Json.str "ground.png")] = some (Json.str m) ∧
      List.lookup "background_color"
        [("name", Json.str "Splash"), ("music", Json.str "intro.ogg"),
         ("background_color", Json.arr [Json.int 0, Json.int 0, Json.int 0]),
         ("background_img", Json.str "sky.png"),
         ("scenery_img", Json.str "ground.png")] = some (Json.arr (bc.map Json.int)) ∧
      List.lookup "background_img"
        [("name", Json.str "Splash"), ("music", Json.str "intro.ogg"),
         ("background_color", Json.arr [Json.int 0, Json.int 0, Json.int 0]),
         ("background_img", Json.str "sky.png"),
         ("scenery_img", Json.str "ground.png")] = some (Json.str bi) ∧
      List.lookup "scenery_img"
        [("name", Json.str "Splash"), ("music", Json.str "intro.ogg"),
         ("background_color", Json.arr [Json.int 0, Json.int 0, Json.int 0]),
         ("background_img", Json.str "sky.png"),
         ("scenery_img", Json.str "ground.png")] = some (Json.str si) :=
  (load_strict_amended
    [("name", Json.str "Splash"), ("music", Json.str "intro.ogg"),
     ("background_color", Json.arr [Json.int 0, Json.int 0, Json.int 0]),
     ("background_img", Json.str "sky.png"),
     ("scenery_img", Json.str "ground.png")]).2.2 (by decide) (by decide)

/-- C1 counterexample: a document missing the required `name` field fails at
schema validation with a validation error, not with a decode error as the
claim states. -/
theorem load_missing_field_not_decode_error :
    LevelEngine.load
      [("music", Json.str "intro.ogg"),
       ("background_color", Json.arr [Json.int 0, Json.int 0, Json.int 0]),
       ("background_img", Json.str "sky.png"),
       ("scenery_img", Json.str "ground.png")] = Except.error LoadError.validation ∧
    LoadError.validation ≠ LoadError.decode :=
  ⟨rfl, by decide⟩

/-- C2: a document violating the schema makes `LevelEngine.load` fail with a
validation error, and any outcome other than a validation error (success or
decode error) can only arise from a schema-valid document: decoding is only
attempted after validation passed. -/
theorem schema_gate_precedes_decode (d : List (String × Json)) :
    (schemaValid d = false → LevelEngine.load d = Except.error LoadError.validation) ∧
    (LevelEngine.load d ≠ Except.error LoadError.validation → schemaValid d = true) := by
  constructor
  · intro h; simp [LevelEngine.load, h]
  · intro h
    cases hv : schemaValid d with
    | false => exact absurd (by simp [LevelEngine.load, hv]) h
    | true => rfl

/-- C2 witness: the spec's own example of a schema violation — a
`background_color` with 4 elements — fails at validation. -/
theorem schema_gate_witness :
    LevelEngine.load
      [("name", Json.str "Splash"), ("music", Json.str "intro.ogg"),
       ("background_color", Json.arr [Json.int 0, Json.int 0, Json.int 0, Json.int 0]),
       ("background_img", Json.str "sky.png"),
       ("scenery_img", Json.str "ground.png")] = Except.error LoadError.validation :=
  (schema_gate_precedes_decode
    [("name", Json.str "Splash"), ("music", Json.str "intro.ogg"),
     ("background_color", Json.arr [Json.int 0, Json.int 0, Json.int 0, Json.int 0]),
     ("background_img", Json.str "sky.png"),
     ("scenery_img", Json.str "ground.png")]).1 (by decide)

/-- The pygame keys the source matches on (`K_q`, `K_SPACE`, `K_LEFT`,
`K_RIGHT`), plus any other key code. -/
inductive Key where
  | k_q
  | k_space
  | k_left
  | k_right
  | other (code : Nat)
deriving DecidableEq

/-- The pygame event types the source matches on, plus any other type. -/
inductive EventType where
  | quit
  | keydown
  | keyup
  | other (code : Nat)
deriving DecidableEq

/-- A pygame event: its type, and its `key` attribute when it has one.
A real `QUIT` event carries no `key` attribute (`key = none`); accessing
`event.key` on it raises `AttributeError`. -/
structure Event where
  type : EventType
  key : Option Key
deriving DecidableEq

/-- The exception the embedded Python code can raise while handling one
event: attribute access on an event lacking that attribute. -/
inductive PyError where
  | attributeError
deriving DecidableEq

/-- One iteration of the `match` in `PlayingState.process_events`, for one
event, given the driver's `done` flag. Returns the new `done` flag and the
lines printed, or the raised exception. The guard
`event.key == pygame.K_q` belongs to the whole or-pattern
`case pygame.QUIT | pygame.KEYDOWN`, so it is evaluated for `QUIT` events
too, raising `AttributeError` when the event has no `key` attribute. -/
def PlayingState.handleEvent (done : Bool) (e : Event) :
    Except PyError (Bool × List String) :=
  match e.type, e.key with
  | EventType.quit, none => Except.error PyError.attributeError
  | EventType.quit, some Key.k_q => Except.ok (true, [])
  | EventType.quit, some _ => Except.ok (done, [])
  | EventType.keydown, none => Except.error PyError.attributeError
  | EventType.keydown, some Key.k_q => Except.ok (true, [])
  | EventType.keydown, some Key.k_space => Except.ok (done, ["Player jump"])
  | EventType.keydown, some Key.k_left => Except.ok (done, ["Player left"])
  | EventType.keydown, some Key.k_right => Except.ok (done, ["Player right"])
  | EventType.keydown, some (Key.other _) => Except.ok (done, [])
  | _, _ => Except.ok (done, [])

/-- `PlayingState.process_events`: drain the queued events in order,
threading the `done` flag and collecting the printed lines; the first raised
exception propagates. -/
def PlayingState.process_events (done : Bool) :
    List Event → Except PyError (Bool × List String)
  | [] => Except.ok (done, [])
  | e :: es =>
    match PlayingState.handleEvent done e with
    | Except.error err => Except.error err
    | Except.ok (d1, l1) =>
      match PlayingState.process_events d1 es with
      | Except.error err => Except.error err
      | Except.ok (d2, l2) => Except.ok (d2, l1 ++ l2)

/-- C3, evaluated on the code: in the Playing state a `QUIT` event raises
`AttributeError` (the or-pattern's guard reads `event.key`, which a `QUIT`
event lacks) instead of setting `done`; a key-down of `K_q` does set `done`;
a movement/jump key-down leaves `done` unchanged and only logs. -/
theorem playing_quit_event_raises :
    PlayingState.process_events false [Event.mk EventType.quit none] =
      Except.error PyError.attributeError ∧
    PlayingState.process_events false [Event.mk EventType.keydown (some Key.k_q)] =
      Except.ok (true, []) ∧
    PlayingState.process_events false [Event.mk EventType.keydown (some Key.k_space)] =
      Except.ok (false, ["Player jump"]) ∧
    PlayingState.process_events false [Event.mk EventType.keydown (some Key.k_left)] =
      Except.ok (false, ["Player left"]) :=
  ⟨rfl, rfl, rfl, rfl⟩

/-- C4, evaluated on the code: a pending-event sequence containing a `QUIT`
event makes `PlayingState.process_events` raise `AttributeError`, so event
handling is not total. -/
theorem playing_process_events_raises :
    PlayingState.process_events false
      [Event.mk EventType.keydown (some Key.k_left), Event.mk EventType.quit none] =
      Except.error PyError.attributeError :=
  rfl

/-- The side effects a `PlayingState` (or `SplashScreenState`) constructor
performs through the shared engines. -/
inductive Effect where
  | play_music (path : String)
  | set_background_fx (color : List Int) (img : String)
  | set_scenery_fx (img : String)
  | write_centered_text (text : String)
deriving DecidableEq

/-- The construction-time side effects of `PlayingState.__init__` once its
level has loaded: play the level music, set the background, set the scenery,
draw the level name as centered title text — in this order, once each. -/
def PlayingState.init_effects (lvl : Level) : List Effect :=
  [Effect.play_music lvl.music,
   Effect.set_background_fx lvl.background_color lvl.background_img,
   Effect.set_scenery_fx lvl.scenery_img,
   Effect.write_centered_text lvl.name]

/-- The driver's replaceable current-state slot. -/
inductive CurrentState where
  | splash
  | playing (levelIndex : Nat)
deriving DecidableEq

/-- The driver state the splash screen's event handling can touch: the
`done` flag and the current-state slot. -/
structure Driver where
  done : Bool
  current : CurrentState
deriving DecidableEq

/-- One iteration of the `match` in `SplashScreenState.process_events`:
`QUIT` sets `done`; any key-down constructs a `PlayingState` for level 1
(running its construction side effects, with `world1` the level the
construction loads for `"world-1"`) and installs it; anything else only
logs. -/
def SplashScreenState.handleEvent (world1 : Level) (s : Driver) (e : Event) :
    Driver × List Effect :=
  match e.type with
  | EventType.quit => (Driver.mk true s.current, [])
  | EventType.keydown =>
    (Driver.mk s.done (CurrentState.playing 1), PlayingState.init_effects world1)
  | _ => (s, [])

/-- `SplashScreenState.process_events`: drain the queued events in order,
threading the driver state and concatenating the fired side effects. -/
def SplashScreenState.process_events (world1 : Level) (s : Driver) :
    List Event → Driver × List Effect
  | [] => (s, [])
  | e :: es =>
    let p := SplashScreenState.handleEvent world1 s e
    let q := SplashScreenState.process_events world1 p.1 es
    (q.1, p.2 ++ q.2)

/-- Splash event handling fires exactly one block of construction side
effects per key-down event in the queue: the effect log is the concatenation
of one `PlayingState.init_effects` per key-down. -/
theorem splash_effects_shape (world1 : Level) (s : Driver) (es : List Event) :
    (SplashScreenState.process_events world1 s es).2 =
      (List.replicate
        ((es.filter fun e => e.type == EventType.keydown).length)
        (PlayingState.init_effects world1)).flatten := by
  induction es generalizing s with
  | nil => rfl
  | cons e es ih =>
    cases e with
    | mk t k =>
      cases t <;>
        simp [SplashScreenState.process_events, SplashScreenState.handleEvent,
          List.filter_cons, ih, List.replicate_succ]

/-- After splash event handling, the current-state slot holds `Playing 1`
exactly when the queue held at least one key-down, and is untouched
otherwise. -/
theorem splash_current_shape (world1 : Level) (s : Driver) (es : List Event) :
    (SplashScreenState.process_events world1 s es).1.current =
      (if (es.filter fun e => e.type == EventType.keydown).length = 0
        then s.current else CurrentState.playing 1) := by
  induction es generalizing s with
  | nil => rfl
  | cons e es ih =>
    cases e with
    | mk t k =>
      cases t <;>
        simp [SplashScreenState.process_events, SplashScreenState.handleEvent,
          List.filter_cons, ih]

/-- C5 (amended): from the Splash state, any queue with at least one
key-down installs a `Playing` state configured for level 1, and the
construction side effects (music, background, scenery, title text) fire
exactly once per key-down event — so exactly once when the queue holds a
single key-down, but twice when two keys went down in the same tick. -/
theorem splash_keydown_transition (world1 : Level) (s : Driver) (es : List Event)
    (h : 0 < (es.filter fun e => e.type == EventType.keydown).length) :
    (SplashScreenState.process_events world1 s es).1.current = CurrentState.playing 1 ∧
    (SplashScreenState.process_events world1 s es).2 =
      (List.replicate
        ((es.filter fun e => e.type == EventType.keydown).length)
        (PlayingState.init_effects world1)).flatten := by
  refine ⟨?_, splash_effects_shape world1 s es⟩
  rw [splash_current_shape, if_neg (by omega)]

/-- C5 witness: a queue holding exactly one key-down installs `Playing 1`
and fires one block of construction effects. -/
theorem splash_keydown_transition_witness :
    (SplashScreenState.process_events (Level.mk "World 1" "w1.ogg" [10, 20, 30] "bg.png" "sc.png")
        (Driver.mk false CurrentState.splash)
        [Event.mk EventType.keydown (some Key.k_space)]).1.current = CurrentState.playing 1 ∧
    (SplashScreenState.process_events (Level.mk "World 1" "w1.ogg" [10, 20, 30] "bg.png" "sc.png")
        (Driver.mk false CurrentState.splash)
        [Event.mk EventType.keydown (some Key.k_space)]).2 =
      (List.replicate
        (([Event.mk EventType.keydown (some Key.k_space)].filter
            fun e => e.type == EventType.keydown).length)
        (PlayingState.init_effects
          (Level.mk "World 1" "w1.ogg" [10, 20, 30] "bg.png" "sc.png"))).flatten :=
  splash_keydown_transition (Level.mk "World 1" "w1.ogg" [10, 20, 30] "bg.png" "sc.png")
    (Driver.mk false CurrentState.splash)
    [Event.mk EventType.keydown (some Key.k_space)] (by decide)

/-- C5 counterexample: a queue with two key-down events (two keys pressed in
the same tick) fires the `play_music` construction side effect twice, not
exactly once as the claim states. -/
theorem splash_double_keydown_fires_twice :
    ((SplashScreenState.process_events
        (Level.mk "World 1" "w1.ogg" [10, 20, 30] "bg.png" "sc.png")
        (Driver.mk false CurrentState.splash)
        [Event.mk EventType.keydown (some Key.k_space),
         Event.mk EventType.keydown (some (Key.other 7))]).2.count
      (Effect.play_music "w1.ogg")) = 2 := by
  decide

/-- The observable calls one pass of `GameEngine.loop` makes, in order. -/
inductive Call where
  | processEvents
  | update
  | draw
  | tick
deriving DecidableEq

/-- `GameEngine.loop`: `while not done: process_events(); update(); draw();
clock.tick(FPS)`. The current state's `update` and `draw` are no-ops, so the
loop is abstracted over the state type `σ` and the `process_events` step
(which may mutate the state and the `done` flag); the result is the trace of
calls. `fuel` bounds the number of iterations so the function is total; the
claims concern finite prefixes of the execution. -/
def GameEngine.loop {σ : Type} (procEv : σ → σ × Bool) :
    Nat → σ → Bool → List Call
  | 0, _, _ => []
  | Nat.succ fuel, s, done =>
    if done then []
    else
      let r := procEv s
      Call.processEvents :: Call.update :: Call.draw :: Call.tick ::
        GameEngine.loop procEv fuel r.1 r.2

/-- With the `done` flag raised, the loop body never runs. -/
theorem GameEngine.loop_done {σ : Type} (procEv : σ → σ × Bool)
    (fuel : Nat) (s : σ) : GameEngine.loop procEv fuel s true = [] := by
  cases fuel <;> rfl

/-- C6 (amended): the `done` flag is checked only at the top of the loop, so
once a tick's `process_events` sets it, that tick still completes — exactly
one further `update`, one further `draw` and one frame wait run — and the
loop exits before any next tick begins; and a loop entered with `done`
already true runs nothing. -/
theorem loop_exits_after_completing_tick {σ : Type} (procEv : σ → σ × Bool)
    (fuel : Nat) (s : σ) (h : (procEv s).2 = true) :
    GameEngine.loop procEv (fuel + 1) s false =
      [Call.processEvents, Call.update, Call.draw, Call.tick] ∧
    GameEngine.loop procEv fuel s true = [] := by
  constructor
  · show (if false = true then [] else _) = _
    rw [if_neg (by simp)]
    simp only [h, GameEngine.loop_done]
  · exact GameEngine.loop_done procEv fuel s

/-- C6 witness: a `process_events` that raises `done` on the first tick
yields exactly one complete tick of calls. -/
theorem loop_exits_after_completing_tick_witness :
    GameEngine.loop (fun s : Unit => (s, true)) 4 () false =
      [Call.processEvents, Call.update, Call.draw, Call.tick] ∧
    GameEngine.loop (fun s : Unit => (s, true)) 3 () true = [] :=
  loop_exits_after_completing_tick (fun s : Unit => (s, true)) 3 () rfl

/-- C6 counterexample: `done` becomes true during the first
`process_events`, yet the trace still contains an `update` call and a `draw`
call after it — the driver does not exit before they run. -/
theorem loop_update_draw_after_done :
    GameEngine.loop (fun s : Unit => (s, true)) 2 () false =
      [Call.processEvents, Call.update, Call.draw, Call.tick] ∧
    Call.update ∈ GameEngine.loop (fun s : Unit => (s, true)) 2 () false ∧
    Call.draw ∈ GameEngine.loop (fun s : Unit => (s, true)) 2 () false := by
  refine ⟨rfl, ?_, ?_⟩ <;> decide

/-- The fixed logical viewport width (`WIDTH = 960`). -/
def WIDTH : Nat := 960

/-- The fixed logical viewport height (`HEIGHT = 640`). -/
def HEIGHT : Nat := 640

/-- Python `range(0, stop, step)` for a positive `step`: the multiples of
`step` below `stop`, in order; it has exactly `⌈stop / step⌉` elements.
(Python raises on `step = 0`; the sources only call it with the positive
scaled image width, and the claims assume `step > 0`.) -/
def pyRange (stop step : Nat) : List Nat :=
  List.range' 0 ((stop + step - 1) / step) step

/-- A color, as the source passes colors around (a list of channel ints). -/
abbrev Color := List Int

/-- A drawing surface, pixel by pixel; `none` is a fully transparent pixel
(the layers are created with `SRCALPHA`, images loaded with
`convert_alpha`). Partial alpha blending is out of the claims' scope, so a
pixel is either transparent or an opaque color. -/
abbrev Layer := Nat → Nat → Option Color

/-- A freshly created, fully transparent layer. -/
def emptyLayer : Layer := fun _ _ => none

/-- A loaded image: dimensions and pixels. -/
structure Image where
  width : Nat
  height : Nat
  pix : Nat → Nat → Option Color

/-- `w = int(img.get_width() * HEIGHT / h)`: Python's `int()` truncates the
true-division result toward zero, which on these non-negative values is
floor division. -/
def scaled_width (img : Image) : Nat := img.width * HEIGHT / img.height

/-- `pygame.transform.scale(img, (nw, nh))`: nearest-neighbour resampling to
the new dimensions. -/
def scaleImage (img : Image) (nw nh : Nat) : Image :=
  Image.mk nw nh (fun x y => img.pix (x * img.width / nw) (y * img.height / nh))

/-- The image as both `set_background` and `set_scenery` rescale it:
width `int(w * HEIGHT / h)`, height exactly `HEIGHT`. -/
def rescaled (img : Image) : Image := scaleImage img (scaled_width img) HEIGHT

/-- `dst.blit(img, [ox, oy])`: paint the image over the destination with
per-pixel alpha — opaque source pixels replace the destination, transparent
source pixels (and everything outside the pasted rectangle) leave it. -/
def blit (dst : Layer) (img : Image) (ox oy : Nat) : Layer :=
  fun x y =>
    if ox ≤ x ∧ x < ox + img.width ∧ oy ≤ y ∧ y < oy + img.height then
      match img.pix (x - ox) (y - oy) with
      | some c => some c
      | none => dst x y
    else dst x y

/-- The tiling loop `for x in positions: dst.blit(img, [x, oy])`. -/
def blitTiles (dst : Layer) (img : Image) (xs : List Nat) (oy : Nat) : Layer :=
  xs.foldl (fun acc x => blit acc img x oy) dst

/-- `VisualEngine.set_background`: fill the whole background layer with the
solid color (dropping everything previously on it), then tile the rescaled
image from `x = 0` in steps of its scaled width. -/
def set_background (_layer : Layer) (color : Color) (img : Image) : Layer :=
  let filled : Layer := fun _ _ => some color
  blitTiles filled (rescaled img) (pyRange WIDTH (scaled_width img)) 0

/-- `VisualEngine.set_scenery`: tile the rescaled image over the existing
scenery layer (no fill — the previous layer content stays underneath),
anchored at `y = HEIGHT - scaled_height`. -/
def set_scenery (layer : Layer) (img : Image) : Layer :=
  blitTiles layer (rescaled img) (pyRange WIDTH (scaled_width img))
    (HEIGHT - (rescaled img).height)

/-- The tile positions are exactly the multiples of `w` below `W`. -/
theorem pyRange_mem (W w : Nat) (hw : 0 < w) (x : Nat) :
    x ∈ pyRange W w ↔ ∃ k, x = k * w ∧ x < W := by
  unfold pyRange
  rw [List.mem_range']
  constructor
  · rintro ⟨i, hi, rfl⟩
    refine ⟨i, by ring, ?_⟩
    have h1 : w * ((W + w - 1) / w) + (W + w - 1) % w = W + w - 1 :=
      Nat.div_add_mod (W + w - 1) w
    have h2 : (W + w - 1) % w < w := Nat.mod_lt _ hw
    have h3 : 0 < (W + w - 1) / w := Nat.pos_of_ne_zero (by omega)
    have h3b : (W + w - 1) / w = ((W + w - 1) / w - 1) + 1 := by omega
    have h4 : w * ((W + w - 1) / w) = w * ((W + w - 1) / w - 1) + w := by
      conv_lhs => rw [h3b]
      ring
    have h5 : w * i ≤ w * ((W + w - 1) / w - 1) :=
      Nat.mul_le_mul_left w (by omega)
    omega
  · rintro ⟨k, rfl, hk⟩
    have hkw : (k + 1) * w = k * w + w := by ring
    have h6 : k + 1 ≤ (W + w - 1) / w :=
      (Nat.le_div_iff_mul_le hw).mpr (by omega)
    exact ⟨k, by omega, by ring⟩

/-- The loop places at least one tile, and the last tile's right edge
reaches `W` or beyond. -/
theorem pyRange_last (W w : Nat) (hw : 0 < w) (hW : 0 < W) :
    ∃ xl, (pyRange W w).getLast? = some xl ∧ W ≤ xl + w := by
  have h1 := Nat.div_add_mod (W + w - 1) w
  have h2 : (W + w - 1) % w < w := Nat.mod_lt _ hw
  have hq : 0 < (W + w - 1) / w := (Nat.le_div_iff_mul_le hw).mpr (by omega)
  obtain ⟨q1, hq1⟩ : ∃ q1, (W + w - 1) / w = q1 + 1 :=
    ⟨(W + w - 1) / w - 1, (Nat.succ_pred_eq_of_pos hq).symm⟩
  unfold pyRange
  rw [hq1, List.range'_concat]
  refine ⟨0 + w * q1, List.getLast?_concat _, ?_⟩
  have h4 : w * (q1 + 1) = w * q1 + w := by ring
  rw [hq1] at h1
  omega

/-- Every horizontal position below `W` lies inside some placed tile:
no horizontal gap is left. -/
theorem pyRange_cover (W w : Nat) (hw : 0 < w) (p : Nat) (hp : p < W) :
    ∃ x, x ∈ pyRange W w ∧ x ≤ p ∧ p < x + w := by
  refine ⟨p / w * w, ?_, Nat.div_mul_le_self p w, ?_⟩
  · exact (pyRange_mem W w hw _).mpr
      ⟨p / w, rfl, Nat.lt_of_le_of_lt (Nat.div_mul_le_self p w) hp⟩
  · have h1 := Nat.div_add_mod p w
    have h2 : p % w < w := Nat.mod_lt _ hw
    have h3 : p / w * w = w * (p / w) := Nat.mul_comm _ _
    omega

/-- C7: for a viewport width `W > 0` and scaled image width `w > 0`, the
tiling loop of `set_background`/`set_scenery` places tiles exactly at
`x = 0, w, 2w, …` (the multiples of `w` below `W`), the right edge of the
last placed tile is at or past `W`, and every position below `W` is covered
by some tile — full coverage, possible right overflow, never a gap. -/
theorem tiling_coverage (W w : Nat) (hw : 0 < w) (hW : 0 < W) :
    (∀ x, x ∈ pyRange W w ↔ ∃ k, x = k * w ∧ x < W) ∧
    (∃ xl, (pyRange W w).getLast? = some xl ∧ W ≤ xl + w) ∧
    (∀ p, p < W → ∃ x, x ∈ pyRange W w ∧ x ≤ p ∧ p < x + w) :=
  ⟨pyRange_mem W w hw, pyRange_last W w hw hW, fun p hp => pyRange_cover W w hw p hp⟩

/-- C7 witness: viewport width 5 with tile width 2 — tiles at 0, 2, 4, the
last tile overflowing to 6 ≥ 5, every position covered. -/
theorem tiling_coverage_witness :
    (∀ x, x ∈ pyRange 5 2 ↔ ∃ k, x = k * 2 ∧ x < 5) ∧
    (∃ xl, (pyRange 5 2).getLast? = some xl ∧ 5 ≤ xl + 2) ∧
    (∀ p, p < 5 → ∃ x, x ∈ pyRange 5 2 ∧ x ≤ p ∧ p < x + 2) :=
  tiling_coverage 5 2 (by decide) (by decide)

/-- Refinement comparison definition, following the spec's words: the spec
prescribes a scaled width of `round(originalWidth × HEIGHT / h)`; this is
that rounding (round half up; the counterexample value is far from a tie,
so any tie-breaking convention agrees). -/
def spec_scaled_width (ow h : Nat) : Nat := (2 * (ow * HEIGHT) + h) / (2 * h)

/-- C8 counterexample: a 1×384 image. The code truncates
`1 * 640 / 384 = 1.666…` to width 1; the spec's `round` gives 2. -/
theorem scaled_width_truncates_not_rounds :
    scaled_width (Image.mk 1 384 fun _ _ => none) = 1 ∧
    spec_scaled_width 1 384 = 2 ∧ (1 : Nat) ≠ 2 :=
  ⟨rfl, rfl, by decide⟩

/-- C8 (amended): the rescaled image has height exactly `HEIGHT`, and its
width is the floor (truncation), not the rounding, of
`originalWidth × HEIGHT / originalHeight` — characterised by
`w · h ≤ ow · HEIGHT < (w + 1) · h`. -/
theorem scale_dims (img : Image) (hh : 0 < img.height) :
    (rescaled img).height = HEIGHT ∧
    scaled_width img * img.height ≤ img.width * HEIGHT ∧
    img.width * HEIGHT < (scaled_width img + 1) * img.height := by
  refine ⟨rfl, Nat.div_mul_le_self _ _, ?_⟩
  have h1 := Nat.div_add_mod (img.width * HEIGHT) img.height
  have h2 : img.width * HEIGHT % img.height < img.height :=
    Nat.mod_lt _ hh
  calc img.width * HEIGHT
      = img.height * (img.width * HEIGHT / img.height) + img.width * HEIGHT % img.height :=
        h1.symm
    _ < img.height * (img.width * HEIGHT / img.height) + img.height :=
        Nat.add_lt_add_left h2 _
    _ = (img.width * HEIGHT / img.height + 1) * img.height := by ring
    _ = (scaled_width img + 1) * img.height := rfl

/-- C8 witness: a 3×2 image scales to 960×640, and 960·2 ≤ 3·640 < 961·2. -/
theorem scale_dims_witness :
    (rescaled (Image.mk 3 2 fun _ _ => some [0])).height = HEIGHT ∧
    scaled_width (Image.mk 3 2 fun _ _ => some [0]) * (Image.mk 3 2 fun _ _ => some [0]).height ≤
      (Image.mk 3 2 fun _ _ => some [0]).width * HEIGHT ∧
    (Image.mk 3 2 fun _ _ => some [0]).width * HEIGHT <
      (scaled_width (Image.mk 3 2 fun _ _ => some [0]) + 1) * (Image.mk 3 2 fun _ _ => some [0]).height :=
  scale_dims (Image.mk 3 2 fun _ _ => some [0]) (by decide)

/-- Unfolding one step of the tiling loop. -/
theorem blitTiles_cons (dst : Layer) (img : Image) (x0 : Nat) (xs : List Nat)
    (oy : Nat) :
    blitTiles dst img (x0 :: xs) oy = blitTiles (blit dst img x0 oy) img xs oy :=
  rfl

/-- A tiling pass decomposes per pixel as: the pass over a fresh transparent
layer where it painted, and the original layer content where it did not. -/
theorem blitTiles_layers (img : Image) (xs : List Nat) (oy : Nat)
    (dst : Layer) (x y : Nat) :
    blitTiles dst img xs oy x y =
      match blitTiles emptyLayer img xs oy x y with
      | some c => some c
      | none => dst x y := by
  induction xs generalizing dst with
  | nil => rfl
  | cons x0 xs ih =>
    rw [blitTiles_cons, blitTiles_cons, ih, ih (blit emptyLayer img x0 oy)]
    cases hA : blitTiles emptyLayer img xs oy x y with
    | some c => rfl
    | none =>
      simp only [blit]
      by_cases hc : x0 ≤ x ∧ x < x0 + img.width ∧ oy ≤ y ∧ y < oy + img.height
      · rw [if_pos hc, if_pos hc]
        cases img.pix (x - x0) (y - oy) <;> rfl
      · rw [if_neg hc, if_neg hc]
        rfl

/-- A pixel already painted stays painted under a further blit. -/
theorem blit_isSome_mono (dst : Layer) (img : Image) (ox oy x y : Nat)
    (h : (dst x y).isSome = true) : ((blit dst img ox oy) x y).isSome = true := by
  simp only [blit]
  split
  · cases img.pix (x - ox) (y - oy) with
    | some c => rfl
    | none => exact h
  · exact h

/-- A pixel already painted stays painted through the whole tiling pass. -/
theorem blitTiles_isSome_mono (img : Image) (xs : List Nat) (oy : Nat) :
    ∀ dst : Layer, ∀ x y : Nat, (dst x y).isSome = true →
      ((blitTiles dst img xs oy) x y).isSome = true := by
  induction xs with
  | nil => exact fun dst x y h => h
  | cons x0 xs ih =>
    intro dst x y h
    rw [blitTiles_cons]
    exact ih _ x y (blit_isSome_mono dst img x0 oy x y h)

/-- A blit paints every pixel of its rectangle at which the image is
opaque. -/
theorem blit_covered_isSome (dst : Layer) (img : Image) (ox oy x y : Nat)
    (hc : ox ≤ x ∧ x < ox + img.width ∧ oy ≤ y ∧ y < oy + img.height)
    (hop : (img.pix (x - ox) (y - oy)).isSome = true) :
    ((blit dst img ox oy) x y).isSome = true := by
  simp only [blit]
  rw [if_pos hc]
  cases hp : img.pix (x - ox) (y - oy) with
  | none => rw [hp] at hop; exact absurd hop (by simp)
  | some c => rfl

/-- If some placed tile covers a pixel at which the image is opaque, the
tiling pass paints that pixel. -/
theorem blitTiles_covered_isSome (img : Image) (oy x y x0 : Nat)
    (hc : x0 ≤ x ∧ x < x0 + img.width ∧ oy ≤ y ∧ y < oy + img.height)
    (hop : (img.pix (x - x0) (y - oy)).isSome = true) :
    ∀ xs : List Nat, x0 ∈ xs → ∀ dst : Layer,
      ((blitTiles dst img xs oy) x y).isSome = true := by
  intro xs
  induction xs with
  | nil => intro h; cases h
  | cons a xs ih =>
    intro hmem dst
    rw [blitTiles_cons]
    rcases List.mem_cons.mp hmem with rfl | hmem2
    · exact blitTiles_isSome_mono img xs oy _ x y
        (blit_covered_isSome dst img x0 oy x y hc hop)
    · exact ih hmem2 _

/-- C9 (amended): `set_background` fully re-fills its layer — the result is
pixelwise independent of whatever the layer held before; `set_scenery` does
not clear its layer — its result is the new tiling where the new tiles
painted, and the *previous* layer content everywhere else, so prior content
persists wherever the new image is transparent or no tile painted. -/
theorem layers_refill (color : Color) (img : Image) (l l2 : Layer) (x y : Nat) :
    set_background l color img x y = set_background l2 color img x y ∧
    set_scenery l img x y =
      (match set_scenery emptyLayer img x y with
       | some c => some c
       | none => l x y) :=
  ⟨rfl,
   blitTiles_layers (rescaled img) (pyRange WIDTH (scaled_width img))
     (HEIGHT - (rescaled img).height) l x y⟩

/-- C9 counterexample: tile an opaque red 1×1 image onto the fresh scenery
layer, then call `set_scenery` again with a fully transparent image. The red
content of the previous call persists at pixel (0, 0), although the new fill
(the transparent tiling alone) paints nothing there. -/
theorem scenery_stale_content_persists :
    set_scenery (set_scenery emptyLayer (Image.mk 1 1 fun _ _ => some [255, 0, 0]))
        (Image.mk 1 1 fun _ _ => none) 0 0 = some [255, 0, 0] ∧
    set_scenery emptyLayer (Image.mk 1 1 fun _ _ => none) 0 0 = none :=
  ⟨rfl, rfl⟩

/-- C10: the scenery image is rescaled to the full viewport height, so the
bottom-anchor expression `HEIGHT - scaled_height` is 0 and the tiles cover
the viewport vertically: at every viewport pixel — including the top row —
an opaque image paints the pixel, and the result there does not depend on
the previous layer content at all. -/
theorem scenery_covers_viewport_vertically (img : Image) (l l2 : Layer)
    (x y : Nat) (hop : ∀ a b, (img.pix a b).isSome = true)
    (hw : 0 < scaled_width img) (hx : x < WIDTH) (hy : y < HEIGHT) :
    HEIGHT - (rescaled img).height = 0 ∧
    (set_scenery l img x y).isSome = true ∧
    set_scenery l img x y = set_scenery l2 img x y := by
  obtain ⟨x0, hmem, hle, hlt⟩ := pyRange_cover WIDTH (scaled_width img) hw x hx
  have hc : x0 ≤ x ∧ x < x0 + (rescaled img).width ∧ 0 ≤ y ∧ y < 0 + (rescaled img).height :=
    ⟨hle, hlt, Nat.zero_le y, by simpa using hy⟩
  have hsome : ∀ dst : Layer,
      ((blitTiles dst (rescaled img) (pyRange WIDTH (scaled_width img)) 0) x y).isSome = true :=
    fun dst => blitTiles_covered_isSome (rescaled img) 0 x y x0 hc (hop _ _)
      (pyRange WIDTH (scaled_width img)) hmem dst
  obtain ⟨c, hch⟩ := Option.isSome_iff_exists.mp (hsome emptyLayer)
  have hTl : blitTiles l (rescaled img) (pyRange WIDTH (scaled_width img)) 0 x y = some c := by
    rw [blitTiles_layers, hch]
  have hTl2 : blitTiles l2 (rescaled img) (pyRange WIDTH (scaled_width img)) 0 x y = some c := by
    rw [blitTiles_layers, hch]
  exact ⟨rfl, Option.isSome_iff_exists.mpr ⟨c, hTl⟩, hTl.trans hTl2.symm⟩

/-- C10 witness: a fully opaque 2×2 image, evaluated at the top-row pixel
(5, 0): the anchor is 0, the pixel is painted, and two different previous
layers give the same result. -/
theorem scenery_covers_viewport_vertically_witness :
    HEIGHT - (rescaled (Image.mk 2 2 fun _ _ => some [9])).height = 0 ∧
    (set_scenery emptyLayer (Image.mk 2 2 fun _ _ => some [9]) 5 0).isSome = true ∧
    set_scenery emptyLayer (Image.mk 2 2 fun _ _ => some [9]) 5 0 =
      set_scenery (fun _ _ => some [1]) (Image.mk 2 2 fun _ _ => some [9]) 5 0 :=
  scenery_covers_viewport_vertically (Image.mk 2 2 fun _ _ => some [9]) emptyLayer
    (fun _ _ => some [1]) 5 0 (fun _ _ => rfl) (by decide) (by decide) (by decide)
